import Mathlib

/-!
Verification development for the DC-analysis core of the ahkab circuit
simulator (`ahkab/dc_analysis.py`).  The Python functions are shallowly
embedded over `ℚ`: numpy column vectors become `List ℚ` or `Fin n → ℚ`,
numpy matrices become `Matrix (Fin n) (Fin n) ℚ`, raised exceptions become
explicit error results, and the mutable loops become structural recursion.
-/

set_option autoImplicit false

open scoped Matrix

/-- Python sequence indexing: a negative index counts from the end. -/
def pyIdx (len : ℕ) (i : ℤ) : ℤ := if i < 0 then i + len else i

/-- Python-style read `v[i]` (numpy `v[i, 0]`) with wraparound for negative
indices.  An out-of-range read yields 0; the Python code would raise
IndexError there and no modelled path performs such a read. -/
def pyGet (v : List ℚ) (i : ℤ) : ℚ :=
  let j := pyIdx v.length i
  if h : 0 ≤ j ∧ j.toNat < v.length then v.get ⟨j.toNat, h.2⟩ else 0

/-- Python-style write `v[i] = a` with wraparound for negative indices. -/
def pySet (v : List ℚ) (i : ℤ) (a : ℚ) : List ℚ :=
  let j := pyIdx v.length i
  if 0 ≤ j then v.set j.toNat a else v

/-- Modelled from the spec: the configuration values of the external
`options` collaborator module (spec §6), read by `dc_analysis.py` but not
part of the sources under verification.  Fields keep the module's names. -/
structure Options where
  nr_damp_first_iters : Bool
  nl_voltages_lock : Bool
  nl_voltages_lock_factor : ℚ
  ver : ℚ
  vea : ℚ
  ier : ℚ
  iea : ℚ
  use_standard_solve_method : Bool
  use_gmin_stepping : Bool
  use_source_stepping : Bool
  dc_sweep_skip_allowed : Bool
deriving DecidableEq

/-! ## Convergence check (dc_analysis.py lines 954-996) -/

/-- `numpy.allclose(a, b, rtol, atol)`: every `|a i - b i| ≤ atol + rtol * |b i|`. -/
def pyAllclose (a b : List ℚ) (rtol atol : ℚ) : Bool :=
  (a.zip b).all fun p => decide (|p.1 - p.2| ≤ atol + rtol * |p.2|)

/-- The debug branch of `custom_convergence_check`: per-entry strict checks,
appending results and breaking at the first failure. -/
def ccc_debug_loop (er ea eresiduum : ℚ) : List ℚ → List ℚ → List ℚ → List Bool
  | xi :: xs, dxi :: dxs, ri :: rs =>
    if |dxi| < er * |xi| + ea ∧ |ri| < eresiduum then
      true :: ccc_debug_loop er ea eresiduum xs dxs rs
    else [false]
  | _, _, _ => []

/-- `custom_convergence_check(x, dx, residuum, er, ea, eresiduum, debug)`
(lines 969-996).  The non-debug branch is
`numpy.allclose(x, x+dx, rtol=er, atol=ea) and numpy.allclose(residuum, 0, atol=eresiduum, rtol=0)`;
an empty block passes. -/
def custom_convergence_check (x dx residuum : List ℚ) (er ea eresiduum : ℚ)
    (debug : Bool) : Bool × List Bool :=
  if x.length ≠ 0 then
    if debug then
      let results := ccc_debug_loop er ea eresiduum x dx residuum
      (!(results.contains false), results)
    else
      (pyAllclose x (List.zipWith (fun a b => a + b) x dx) er ea &&
        pyAllclose residuum (List.replicate residuum.length 0) 0 eresiduum, [])
  else (true, [])

/-- `voltage_convergence_check` (line 963): tolerances er=ver, ea=vea, eresiduum=iea. -/
def voltage_convergence_check (opts : Options) (x dx residuum : List ℚ) (debug : Bool) :
    Bool × List Bool :=
  custom_convergence_check x dx residuum opts.ver opts.vea opts.iea debug

/-- `current_convergence_check` (line 966): tolerances er=ier, ea=iea, eresiduum=vea. -/
def current_convergence_check (opts : Options) (x dx residuum : List ℚ) (debug : Bool) :
    Bool × List Bool :=
  custom_convergence_check x dx residuum opts.ier opts.iea opts.vea debug

/-- `convergence_check(x, dx, residuum, nv_minus_one)` (lines 954-961): splits the
vectors into the voltage block (first `nv-1` entries) and the current block (the
rest); the debug flag is not forwarded to the block checks in the source. -/
def convergence_check (opts : Options) (x dx residuum : List ℚ) (nv_minus_one : ℕ) :
    Bool × List Bool :=
  let v := voltage_convergence_check opts (x.take nv_minus_one) (dx.take nv_minus_one)
    (residuum.take nv_minus_one) false
  let c := current_convergence_check opts (x.drop nv_minus_one) (dx.drop nv_minus_one)
    (residuum.drop nv_minus_one) false
  (v.1 && c.1, v.2 ++ c.2)

/-- The convergence predicate exactly as claim C5 words it: a block passes iff
every entry satisfies `|dx i| ≤ e_r * |x i| + e_a` and `|residual i| ≤ e_residual`;
the result is the conjunction of the voltage and current blocks. -/
def claimed_convergence_pass (opts : Options) (x dx residuum : List ℚ) (nv1 : ℕ) : Bool :=
  (((x.take nv1).zip ((dx.take nv1).zip (residuum.take nv1))).all fun p =>
      decide (|p.2.1| ≤ opts.ver * |p.1| + opts.vea ∧ |p.2.2| ≤ opts.iea)) &&
  (((x.drop nv1).zip ((dx.drop nv1).zip (residuum.drop nv1))).all fun p =>
      decide (|p.2.1| ≤ opts.ier * |p.1| + opts.iea ∧ |p.2.2| ≤ opts.vea))

/-- The convergence predicate as the code actually computes it (claim C5 amended):
the relative term is measured against the updated value `x i + dx i`, with
non-strict inequalities, per block, conjunction of the two blocks. -/
def amended_convergence_pass (opts : Options) (x dx residuum : List ℚ) (nv1 : ℕ) : Bool :=
  (((x.take nv1).zip ((dx.take nv1).zip (residuum.take nv1))).all fun p =>
      decide (|p.2.1| ≤ opts.vea + opts.ver * |p.1 + p.2.1| ∧ |p.2.2| ≤ opts.iea)) &&
  (((x.drop nv1).zip ((dx.drop nv1).zip (residuum.drop nv1))).all fun p =>
      decide (|p.2.1| ≤ opts.iea + opts.ier * |p.1 + p.2.1| ∧ |p.2.2| ≤ opts.vea))

lemma pyAllclose_shift (er ea : ℚ) :
    ∀ (x dx : List ℚ),
      pyAllclose x (List.zipWith (fun a b => a + b) x dx) er ea =
        ((x.zip dx).all fun p => decide (|p.2| ≤ ea + er * |p.1 + p.2|))
  | [], _ => rfl
  | _ :: _, [] => rfl
  | a :: x, b :: dx => by
    have ih := pyAllclose_shift er ea x dx
    simp only [pyAllclose, List.zipWith_cons_cons, List.zip_cons_cons, List.all_cons] at *
    rw [ih]
    congr 1
    rw [decide_eq_decide]
    have hab : a - (a + b) = -b := by ring
    rw [hab, abs_neg]

lemma pyAllclose_resid (eres : ℚ) :
    ∀ (r : List ℚ),
      pyAllclose r (List.replicate r.length 0) 0 eres =
        (r.all fun c => decide (|c| ≤ eres))
  | [] => rfl
  | c :: r => by
    have ih := pyAllclose_resid eres r
    simp only [pyAllclose, List.length_cons, List.replicate_succ, List.zip_cons_cons,
      List.all_cons] at *
    rw [ih]
    congr 1
    rw [decide_eq_decide]
    have hc : c - 0 = c := by ring
    have he : eres + 0 * |(0 : ℚ)| = eres := by ring
    rw [hc, he]

lemma all_zip_split (P Q : ℚ → ℚ → ℚ → Prop) [∀ a b c, Decidable (P a b c)]
    [∀ a b c, Decidable (Q a b c)] :
    ∀ (x dx r : List ℚ), x.length = dx.length → x.length = r.length →
      (((x.zip dx).all fun p => decide (P p.1 p.2 0)) &&
        (r.all fun c => decide (Q 0 0 c))) =
      ((x.zip (dx.zip r)).all fun p => decide (P p.1 p.2.1 0 ∧ Q 0 0 p.2.2))
  | [], [], [], _, _ => rfl
  | a :: x, b :: dx, c :: r, h1, h2 => by
    have ih := all_zip_split P Q x dx r (by simpa using h1) (by simpa using h2)
    simp only [List.zip_cons_cons, List.all_cons]
    rw [← ih]
    simp only [Bool.decide_and]
    rw [show ∀ (p q s t : Bool), ((p && q) && (s && t)) = ((p && s) && (q && t)) from by
      intro p q s t
      cases p <;> cases q <;> cases s <;> cases t <;> rfl]

/-- One block of the check, non-debug branch, equals the per-entry
characterization with the relative term against `x i + dx i`. -/
lemma custom_convergence_check_eq (er ea eres : ℚ) (x dx r : List ℚ)
    (h1 : x.length = dx.length) (h2 : x.length = r.length) :
    (custom_convergence_check x dx r er ea eres false).1 =
      ((x.zip (dx.zip r)).all fun p =>
        decide (|p.2.1| ≤ ea + er * |p.1 + p.2.1| ∧ |p.2.2| ≤ eres)) := by
  match x, dx, r, h1, h2 with
  | [], [], [], _, _ => rfl
  | a :: x, b :: dx, c :: r, h1, h2 =>
    have hsh := pyAllclose_shift er ea (a :: x) (b :: dx)
    have hr := pyAllclose_resid eres (c :: r)
    have hsp := all_zip_split (fun xi dxi _ => |dxi| ≤ ea + er * |xi + dxi|)
      (fun _ _ ri => |ri| ≤ eres) (a :: x) (b :: dx) (c :: r)
      (by simpa using h1) (by simpa using h2)
    beta_reduce at hsp
    simp only [List.length_cons] at hr
    simp only [custom_convergence_check, List.length_cons, Bool.false_eq_true, if_false]
    rw [if_pos (by simp)]
    rw [hsh, hr, hsp]

/-- A concrete configuration used for the C5 statements. -/
def optsC5 : Options :=
  { nr_damp_first_iters := false, nl_voltages_lock := false,
    nl_voltages_lock_factor := 0, ver := 1, vea := 0, ier := 1, iea := 1,
    use_standard_solve_method := true, use_gmin_stepping := false,
    use_source_stepping := false, dc_sweep_skip_allowed := false }

/-- C5 (counterexample): with ver = 1, vea = 0, the claimed per-entry test
`|dx i| ≤ e_r * |x i| + e_a` fails at x = [0], dx = [1/10], yet the code's
check (numpy.allclose of x against x + dx) passes, so the claimed
"if and only if" is false. -/
theorem c5_counterexample :
    (convergence_check optsC5 [0] [1/10] [0] 1).1 = true ∧
      claimed_convergence_pass optsC5 [0] [1/10] [0] 1 = false := by
  constructor
  · with_unfolding_all decide
  · with_unfolding_all decide

/-- C5 (amended): the convergence check passes iff every voltage-block entry
satisfies `|dx i| ≤ vea + ver * |x i + dx i|` and `|residual i| ≤ iea`, and every
current-block entry satisfies `|dx i| ≤ iea + ier * |x i + dx i|` and
`|residual i| ≤ vea` — the relative term is measured against the updated value
`x i + dx i`, not against `x i`.  An empty block passes and the overall result
is the conjunction of the two block checks. -/
theorem c5_convergence_check_amended (opts : Options) (x dx r : List ℚ) (nv1 : ℕ)
    (h1 : x.length = dx.length) (h2 : x.length = r.length) :
    (convergence_check opts x dx r nv1).1 = amended_convergence_pass opts x dx r nv1 := by
  simp only [convergence_check, amended_convergence_pass, voltage_convergence_check,
    current_convergence_check]
  rw [custom_convergence_check_eq _ _ _ (x.take nv1) (dx.take nv1) (r.take nv1)
        (by simp [h1]) (by simp [h2]),
      custom_convergence_check_eq _ _ _ (x.drop nv1) (dx.drop nv1) (r.drop nv1)
        (by simp [h1]) (by simp [h2])]

/-- C5 witness: the amended characterization at a concrete input. -/
theorem c5_witness :
    ([(0 : ℚ), 2].length = [(1 : ℚ), 0].length ∧ [(0 : ℚ), 2].length = [(0 : ℚ), 5].length) ∧
      (convergence_check optsC5 [0, 2] [1, 0] [0, 5] 1).1 =
        amended_convergence_pass optsC5 [0, 2] [1, 0] [0, 5] 1 :=
  ⟨⟨rfl, rfl⟩, c5_convergence_check_amended optsC5 [0, 2] [1, 0] [0, 5] 1 rfl rfl⟩

/-! ## Damping coefficient get_td (dc_analysis.py lines 671-715) -/

/-- The voltage-change magnitude read by get_td for a locked pair
(lines 702-712): a port node equal to ground (0) drops its `dx` term. -/
def get_td_pair_delta (dx : List ℚ) (p : ℕ × ℕ) : ℚ :=
  if p.1 ≠ 0 then
    if p.2 ≠ 0 then |pyGet dx ((p.1 : ℤ) - 1) - pyGet dx ((p.2 : ℤ) - 1)|
    else |pyGet dx ((p.1 : ℤ) - 1)|
  else |pyGet dx ((p.2 : ℤ) - 1)|

/-- The for-loop of get_td over locked_nodes; the state is the pair
(td, td_new), both mutated in place by the source. -/
def get_td_loop (kVth : ℚ) (dx : List ℚ) : List (ℕ × ℕ) → ℚ × ℚ → ℚ × ℚ
  | [], s => s
  | p :: rest, (td, td_new) =>
    let d := get_td_pair_delta dx p
    let td_new' := if kVth < d then kVth / d else td_new
    let td' := if td_new' < td then td_new' else td
    get_td_loop kVth dx rest (td', td_new')

/-- The iteration-count damping of get_td (lines 691-699). -/
def get_td_iter_damp (opts : Options) (n : ℤ) : ℚ :=
  if opts.nr_damp_first_iters = false ∨ n < 0 then 1
  else if n < 10 then 1/100
  else if n < 20 then 1/10
  else 1

/-- `get_td(dx, locked_nodes, n)` (lines 671-715): damping coefficient for
the Newton step.  `Vth` is the thermal voltage from the constants collaborator. -/
def get_td (opts : Options) (Vth : ℚ) (dx : List ℚ) (locked_nodes : List (ℕ × ℕ))
    (n : ℤ) : ℚ :=
  let td := get_td_iter_damp opts n
  if opts.nl_voltages_lock then
    (get_td_loop (opts.nl_voltages_lock_factor * Vth) dx locked_nodes (td, 1)).1
  else td

/-- `dx` read the way claim C6 words it, with ground (node 0) treated as 0. -/
def dx_at (dx : List ℚ) (m : ℕ) : ℚ := if m = 0 then 0 else pyGet dx ((m : ℤ) - 1)

/-- td₂ of claim C6: the minimum (base 1) of kVth/|dx n1 − dx n2| over the
locked pairs whose voltage change exceeds kVth. -/
def td2_claim (kVth : ℚ) (dx : List ℚ) (locked : List (ℕ × ℕ)) : ℚ :=
  locked.foldr (fun p acc =>
    if kVth < |dx_at dx p.1 - dx_at dx p.2| then
      min (kVth / |dx_at dx p.1 - dx_at dx p.2|) acc
    else acc) 1

/-- td₂ computed with the code's own pair deltas. -/
def td2_code (kVth : ℚ) (dx : List ℚ) (locked : List (ℕ × ℕ)) : ℚ :=
  locked.foldr (fun p acc =>
    if kVth < get_td_pair_delta dx p then
      min (kVth / get_td_pair_delta dx p) acc
    else acc) 1

lemma get_td_loop_fst (kVth : ℚ) (dx : List ℚ) :
    ∀ (l : List (ℕ × ℕ)) (td tdn : ℚ), td ≤ tdn → td ≤ 1 →
      (get_td_loop kVth dx l (td, tdn)).1 = min td (td2_code kVth dx l)
  | [], td, tdn, _, h2 => by
    simp [get_td_loop, td2_code, min_eq_left h2]
  | p :: rest, td, tdn, h1, h2 => by
    simp only [get_td_loop, td2_code, List.foldr_cons]
    by_cases hd : kVth < get_td_pair_delta dx p
    · rw [if_pos hd, if_pos hd]
      have he : (if kVth / get_td_pair_delta dx p < td then kVth / get_td_pair_delta dx p
          else td) = min (kVth / get_td_pair_delta dx p) td := by
        rcases lt_or_ge (kVth / get_td_pair_delta dx p) td with h | h
        · rw [if_pos h, min_eq_left (le_of_lt h)]
        · rw [if_neg (not_lt.mpr h), min_eq_right h]
      rw [he]
      rw [get_td_loop_fst kVth dx rest (min (kVth / get_td_pair_delta dx p) td)
        (kVth / get_td_pair_delta dx p) (min_le_left _ _)
        (le_trans (min_le_right _ _) h2)]
      rw [show td2_code kVth dx rest = rest.foldr (fun p acc =>
        if kVth < get_td_pair_delta dx p then min (kVth / get_td_pair_delta dx p) acc
        else acc) 1 from rfl]
      rw [min_comm (kVth / get_td_pair_delta dx p) td, min_assoc]
    · rw [if_neg hd, if_neg hd, if_neg (not_lt.mpr h1)]
      rw [get_td_loop_fst kVth dx rest td tdn h1 h2]
      rfl

lemma get_td_iter_damp_pos (opts : Options) (n : ℤ) :
    0 < get_td_iter_damp opts n ∧ get_td_iter_damp opts n ≤ 1 := by
  unfold get_td_iter_damp
  split_ifs <;> norm_num

lemma td2_code_pos (kVth : ℚ) (dx : List ℚ) (hk : 0 < kVth) :
    ∀ l : List (ℕ × ℕ), 0 < td2_code kVth dx l ∧ td2_code kVth dx l ≤ 1
  | [] => by simp [td2_code]
  | p :: rest => by
    have ih := td2_code_pos kVth dx hk rest
    simp only [td2_code, List.foldr_cons] at *
    by_cases hd : kVth < get_td_pair_delta dx p
    · rw [if_pos hd]
      refine ⟨lt_min (div_pos hk (lt_trans hk hd)) ih.1, le_trans (min_le_right _ _) ih.2⟩
    · rw [if_neg hd]
      exact ih

lemma td2_code_le (kVth : ℚ) (dx : List ℚ) :
    ∀ (l : List (ℕ × ℕ)) (p : ℕ × ℕ), p ∈ l → kVth < get_td_pair_delta dx p →
      td2_code kVth dx l ≤ kVth / get_td_pair_delta dx p
  | [], p, hp, _ => absurd hp (List.not_mem_nil p)
  | q :: rest, p, hp, hd => by
    rcases List.mem_cons.mp hp with h | h
    · subst h
      simp only [td2_code, List.foldr_cons]
      rw [if_pos hd]
      exact min_le_left _ _
    · have ih := td2_code_le kVth dx rest p h hd
      simp only [td2_code, List.foldr_cons] at *
      by_cases hq : kVth < get_td_pair_delta dx q
      · rw [if_pos hq]
        exact le_trans (min_le_right _ _) ih
      · rw [if_neg hq]
        exact ih

lemma get_td_pair_delta_eq (dx : List ℚ) (p : ℕ × ℕ) (hp : p.1 ≠ 0 ∨ p.2 ≠ 0) :
    get_td_pair_delta dx p = |dx_at dx p.1 - dx_at dx p.2| := by
  unfold get_td_pair_delta dx_at
  by_cases h1 : p.1 = 0
  · rcases hp with h | h
    · exact absurd h1 h
    · rw [if_neg (by simpa using h1), if_pos h1, if_neg h, zero_sub, abs_neg]
  · by_cases h2 : p.2 = 0
    · rw [if_pos (by simpa using h1), if_neg (by simpa using h2), if_neg h1, if_pos h2,
        sub_zero]
    · rw [if_pos (by simpa using h1), if_pos (by simpa using h2), if_neg h1, if_neg h2]

lemma td2_code_eq_claim (kVth : ℚ) (dx : List ℚ) :
    ∀ l : List (ℕ × ℕ), (∀ p ∈ l, p.1 ≠ 0 ∨ p.2 ≠ 0) →
      td2_code kVth dx l = td2_claim kVth dx l
  | [], _ => rfl
  | p :: rest, hp => by
    have hd := get_td_pair_delta_eq dx p (hp p (List.mem_cons_self p rest))
    have ih := td2_code_eq_claim kVth dx rest (fun q hq => hp q (List.mem_cons_of_mem p hq))
    simp only [td2_code, td2_claim, List.foldr_cons] at *
    rw [hd, ih]

lemma get_td_pair_delta_nonneg (dx : List ℚ) (p : ℕ × ℕ) : 0 ≤ get_td_pair_delta dx p := by
  unfold get_td_pair_delta
  split_ifs <;> exact abs_nonneg _

/-- C6: with the locked-node guard enabled, get_td returns
td = min(td₁, td₂) ∈ (0,1], where td₁ is the iteration-count damping (0.01
for n < 10, 0.1 for 10 ≤ n < 20, 1 otherwise, and 1 when n < 0 or
nr_damp_first_iters is off) and td₂ is the minimum over locked node pairs of
nl_voltages_lock_factor·Vth/|dx n1 − dx n2| (ground read as 0) taken over the
pairs whose voltage change exceeds nl_voltages_lock_factor·Vth; consequently
every locked pair satisfies |td·(dx n1 − dx n2)| ≤ nl_voltages_lock_factor·Vth. -/
theorem c6_get_td (opts : Options) (Vth : ℚ) (dx : List ℚ) (locked : List (ℕ × ℕ)) (n : ℤ)
    (hlock : opts.nl_voltages_lock = true)
    (hk : 0 < opts.nl_voltages_lock_factor * Vth)
    (hp : ∀ p ∈ locked, p.1 ≠ 0 ∨ p.2 ≠ 0) :
    get_td opts Vth dx locked n =
      min (get_td_iter_damp opts n)
        (td2_claim (opts.nl_voltages_lock_factor * Vth) dx locked) ∧
    0 < get_td opts Vth dx locked n ∧ get_td opts Vth dx locked n ≤ 1 ∧
    ∀ p ∈ locked,
      |get_td opts Vth dx locked n * (dx_at dx p.1 - dx_at dx p.2)| ≤
        opts.nl_voltages_lock_factor * Vth := by
  set kVth := opts.nl_voltages_lock_factor * Vth with hkv
  have hd1 := get_td_iter_damp_pos opts n
  have heq : get_td opts Vth dx locked n =
      min (get_td_iter_damp opts n) (td2_code kVth dx locked) := by
    simp only [get_td, hlock]
    rw [if_pos trivial]
    exact get_td_loop_fst kVth dx locked (get_td_iter_damp opts n) 1 hd1.2 hd1.2
  have hclaim : td2_code kVth dx locked = td2_claim kVth dx locked :=
    td2_code_eq_claim kVth dx locked hp
  have h2 := td2_code_pos kVth dx hk locked
  have htpos : 0 < get_td opts Vth dx locked n := by
    rw [heq]
    exact lt_min hd1.1 h2.1
  have htle1 : get_td opts Vth dx locked n ≤ 1 := by
    rw [heq]
    exact le_trans (min_le_left _ _) hd1.2
  refine ⟨by rw [heq, hclaim], htpos, htle1, ?_⟩
  intro p hpmem
  have hdelta := get_td_pair_delta_eq dx p (hp p hpmem)
  have habs : |get_td opts Vth dx locked n * (dx_at dx p.1 - dx_at dx p.2)| =
      get_td opts Vth dx locked n * get_td_pair_delta dx p := by
    rw [abs_mul, abs_of_pos htpos, ← hdelta]
  rw [habs]
  by_cases hcase : kVth < get_td_pair_delta dx p
  · have hle : get_td opts Vth dx locked n ≤ kVth / get_td_pair_delta dx p := by
      rw [heq]
      exact le_trans (min_le_right _ _) (td2_code_le kVth dx locked p hpmem hcase)
    have hdpos : 0 < get_td_pair_delta dx p := lt_trans hk hcase
    calc get_td opts Vth dx locked n * get_td_pair_delta dx p
        ≤ (kVth / get_td_pair_delta dx p) * get_td_pair_delta dx p :=
          mul_le_mul_of_nonneg_right hle (le_of_lt hdpos)
      _ = kVth := div_mul_cancel₀ kVth (ne_of_gt hdpos)
  · have hle : get_td_pair_delta dx p ≤ kVth := not_lt.mp hcase
    calc get_td opts Vth dx locked n * get_td_pair_delta dx p ≤ 1 * kVth :=
          mul_le_mul htle1 hle (get_td_pair_delta_nonneg dx p) (by norm_num)
      _ = kVth := one_mul kVth

/-- A concrete configuration for the C6 witness: locked-node guard on,
iteration-count damping off, lock factor · Vth = 1. -/
def optsC6 : Options :=
  { nr_damp_first_iters := false, nl_voltages_lock := true,
    nl_voltages_lock_factor := 1, ver := 0, vea := 0, ier := 0, iea := 0,
    use_standard_solve_method := true, use_gmin_stepping := false,
    use_source_stepping := false, dc_sweep_skip_allowed := false }

/-- C6 witness: the theorem applied at dx = [3, -3], locked pair (1,2), n = 1. -/
theorem c6_witness :
    (optsC6.nl_voltages_lock = true ∧ 0 < optsC6.nl_voltages_lock_factor * 1 ∧
      (∀ p ∈ [((1 : ℕ), (2 : ℕ))], p.1 ≠ 0 ∨ p.2 ≠ 0)) ∧
    (get_td optsC6 1 [3, -3] [(1, 2)] 1 =
      min (get_td_iter_damp optsC6 1)
        (td2_claim (optsC6.nl_voltages_lock_factor * 1) [3, -3] [(1, 2)]) ∧
    0 < get_td optsC6 1 [3, -3] [(1, 2)] 1 ∧ get_td optsC6 1 [3, -3] [(1, 2)] 1 ≤ 1 ∧
    ∀ p ∈ [((1 : ℕ), (2 : ℕ))],
      |get_td optsC6 1 [3, -3] [(1, 2)] 1 * (dx_at [3, -3] p.1 - dx_at [3, -3] p.2)| ≤
        optsC6.nl_voltages_lock_factor * 1) :=
  ⟨⟨rfl, by norm_num [optsC6], by decide⟩,
    c6_get_td optsC6 1 [3, -3] [(1, 2)] 1 rfl (by norm_num [optsC6]) (by decide)⟩

/-! ## Newton kernel mdn_solver (dc_analysis.py lines 530-626) -/

/-- Executable inverse of a rational matrix, `det⁻¹ • adjugate`.  It agrees
with `numpy.linalg.inv` on invertible matrices; on a singular matrix numpy
raises LinAlgError (caught by dc_solve), so results are only meaningful under
an `IsUnit det` hypothesis. -/
def matInv {n : ℕ} (A : Matrix (Fin n) (Fin n) ℚ) : Matrix (Fin n) (Fin n) ℚ :=
  A.det⁻¹ • A.adjugate

lemma matInv_mulVec {n : ℕ} {A : Matrix (Fin n) (Fin n) ℚ} (hA : IsUnit A.det)
    (v : Fin n → ℚ) : A *ᵥ (matInv A *ᵥ v) = v := by
  have hdet : A.det ≠ 0 := hA.ne_zero
  unfold matInv
  rw [Matrix.smul_mulVec_assoc, Matrix.mulVec_smul, Matrix.mulVec_mulVec,
    Matrix.mul_adjugate, Matrix.smul_mulVec_assoc, Matrix.one_mulVec, smul_smul,
    inv_mul_cancel₀ hdet, one_smul]

/-- The Newton iteration of `mdn_solver` (lines 596-619).  `nonlinear` is
`circ.is_nonlinear()`; `buildJTx` abstracts `build_J_and_Tx` applied to the
circuit's nonlinear elements at the given time (no claim exercises the
nonlinear branch).  `rem` counts the Newton iterations still allowed by
MAXIT; the third argument of the state is the solution estimate and the
fourth the residual of the previous iteration (returned on exhaustion; the
Python code leaves `residuo` unbound when MAXIT = 0, so that value is junk). -/
def mdn_loop {n : ℕ} (opts : Options) (Vth : ℚ) (nonlinear : Bool)
    (buildJTx : (Fin n → ℚ) → Matrix (Fin n) (Fin n) ℚ × (Fin n → ℚ))
    (mna : Matrix (Fin n) (Fin n) ℚ) (T : Fin n → ℚ) (nv1 : ℕ)
    (locked_nodes : List (ℕ × ℕ)) :
    ℕ → ℕ → (Fin n → ℚ) → (Fin n → ℚ) → (Fin n → ℚ) × (Fin n → ℚ) × Bool × ℕ
  | 0, iteration, x, residuo => (x, residuo, false, iteration)
  | rem + 1, iteration, x, _ =>
    let iteration' := iteration + 1
    let JTx : Matrix (Fin n) (Fin n) ℚ × (Fin n → ℚ) :=
      if nonlinear then ((buildJTx x).1 + mna, (buildJTx x).2) else (mna, 0)
    let residuo := mna *ᵥ x + T + JTx.2
    let dx := matInv JTx.1 *ᵥ (-residuo)
    let x' := x + get_td opts Vth (List.ofFn dx) locked_nodes (iteration' : ℤ) • dx
    if nonlinear = false then (x', residuo, true, iteration')
    else if (convergence_check opts (List.ofFn x') (List.ofFn dx) (List.ofFn residuo) nv1).1 then
      (x', residuo, true, iteration')
    else mdn_loop opts Vth nonlinear buildJTx mna T nv1 locked_nodes rem iteration' x' residuo

/-- `mdn_solver` entry (lines 583-598): a missing initial guess becomes the
all-zeros vector; a guess whose row count differs from the reduced MNA size
raises before any Newton iteration.  The guess is a sized vector `⟨m, v⟩`
standing for a numpy column vector with `m` rows. -/
def mdn_solver {n : ℕ} (opts : Options) (Vth : ℚ) (nonlinear : Bool)
    (buildJTx : (Fin n → ℚ) → Matrix (Fin n) (Fin n) ℚ × (Fin n → ℚ))
    (x0 : Option ((m : ℕ) × (Fin m → ℚ)))
    (mna : Matrix (Fin n) (Fin n) ℚ) (T : Fin n → ℚ) (MAXIT : ℕ) (nv1 : ℕ)
    (locked_nodes : List (ℕ × ℕ)) :
    Except String ((Fin n → ℚ) × (Fin n → ℚ) × Bool × ℕ) :=
  match x0 with
  | none =>
    .ok (mdn_loop opts Vth nonlinear buildJTx mna T nv1 locked_nodes MAXIT 0 (fun _ => 0) 0)
  | some g =>
    if h : g.1 = n then
      .ok (mdn_loop opts Vth nonlinear buildJTx mna T nv1 locked_nodes MAXIT 0
        (fun i => g.2 (Fin.cast h.symm i)) 0)
    else .error "x0s size is different from expected"

/-- A generic concrete configuration for witnesses whose claim does not
depend on the configuration values. -/
def optsStd : Options :=
  { nr_damp_first_iters := false, nl_voltages_lock := false,
    nl_voltages_lock_factor := 0, ver := 0, vea := 0, ier := 0, iea := 0,
    use_standard_solve_method := true, use_gmin_stepping := false,
    use_source_stepping := false, dc_sweep_skip_allowed := false }

/-- C9: a non-None initial guess whose row count differs from the reduced MNA
size makes mdn_solver raise before any Newton iteration; a None guess
proceeds with the all-zeros vector of the reduced size. -/
theorem c9_mdn_solver_shape (n : ℕ) (opts : Options) (Vth : ℚ) (nonlinear : Bool)
    (buildJTx : (Fin n → ℚ) → Matrix (Fin n) (Fin n) ℚ × (Fin n → ℚ))
    (mna : Matrix (Fin n) (Fin n) ℚ) (T : Fin n → ℚ) (MAXIT nv1 : ℕ)
    (locked : List (ℕ × ℕ)) :
    (∀ g : (m : ℕ) × (Fin m → ℚ), g.1 ≠ n →
      mdn_solver opts Vth nonlinear buildJTx (some g) mna T MAXIT nv1 locked =
        .error "x0s size is different from expected") ∧
    mdn_solver opts Vth nonlinear buildJTx none mna T MAXIT nv1 locked =
      .ok (mdn_loop opts Vth nonlinear buildJTx mna T nv1 locked MAXIT 0 (fun _ => 0) 0) := by
  constructor
  · intro g hg
    simp only [mdn_solver]
    rw [dif_neg hg]
  · rfl

/-- C9 witness: a 2-row guess against a 1-row system errors; a None guess
runs from zero. -/
theorem c9_witness :
    ((⟨2, fun _ => 0⟩ : (m : ℕ) × (Fin m → ℚ)).1 ≠ 1 ∧
      mdn_solver optsStd 1 false (fun _ => (1, 0)) (some ⟨2, fun _ => 0⟩)
        (1 : Matrix (Fin 1) (Fin 1) ℚ) 0 5 0 [] =
        .error "x0s size is different from expected") ∧
    mdn_solver optsStd 1 false (fun _ => (1, 0)) none
        (1 : Matrix (Fin 1) (Fin 1) ℚ) 0 5 0 [] =
      .ok (mdn_loop optsStd 1 false (fun _ => (1, 0)) 1 0 0 [] 5 0 (fun _ => 0) 0) :=
  ⟨⟨by decide,
    (c9_mdn_solver_shape 1 optsStd 1 false (fun _ => (1, 0)) 1 0 5 0 []).1
      ⟨2, fun _ => 0⟩ (by decide)⟩,
    (c9_mdn_solver_shape 1 optsStd 1 false (fun _ => (1, 0)) 1 0 5 0 []).2⟩

lemma get_td_flags_off (opts : Options) (Vth : ℚ) (dx : List ℚ) (l : List (ℕ × ℕ)) (m : ℤ)
    (h1 : opts.nr_damp_first_iters = false) (h2 : opts.nl_voltages_lock = false) :
    get_td opts Vth dx l m = 1 := by
  simp [get_td, get_td_iter_damp, h1, h2]

/-- A size-matching sized guess is passed through to the Newton loop. -/
lemma mdn_solver_some_eq {n : ℕ} (opts : Options) (Vth : ℚ) (nonlinear : Bool)
    (buildJTx : (Fin n → ℚ) → Matrix (Fin n) (Fin n) ℚ × (Fin n → ℚ))
    (mna : Matrix (Fin n) (Fin n) ℚ) (T : Fin n → ℚ) (MAXIT nv1 : ℕ)
    (locked : List (ℕ × ℕ)) (x0 : Fin n → ℚ) :
    mdn_solver opts Vth nonlinear buildJTx (some ⟨n, x0⟩) mna T MAXIT nv1 locked =
      .ok (mdn_loop opts Vth nonlinear buildJTx mna T nv1 locked MAXIT 0 x0 0) := by
  unfold mdn_solver
  exact dif_pos rfl

/-- One Newton step on a linear circuit, written out. -/
lemma mdn_loop_linear_step {n : ℕ} (opts : Options) (Vth : ℚ)
    (buildJTx : (Fin n → ℚ) → Matrix (Fin n) (Fin n) ℚ × (Fin n → ℚ))
    (mna : Matrix (Fin n) (Fin n) ℚ) (T : Fin n → ℚ) (nv1 : ℕ)
    (locked : List (ℕ × ℕ)) (rem iter : ℕ) (x r0 : Fin n → ℚ) :
    mdn_loop opts Vth false buildJTx mna T nv1 locked (rem + 1) iter x r0 =
      (x + get_td opts Vth (List.ofFn (matInv mna *ᵥ -(mna *ᵥ x + T + 0))) locked
          ((iter + 1 : ℕ) : ℤ) • (matInv mna *ᵥ -(mna *ᵥ x + T + 0)),
        mna *ᵥ x + T + 0, true, iter + 1) := rfl

/-- C1 (amended): on a circuit with no nonlinear elements, mdn_solver sets
converged = true after exactly one iteration for every initial guess, with
x = x0 + td·dx for dx = −J⁻¹(mna·x0 + T); when both damping flags are off
(so td = 1) and mna is invertible, the returned x is the direct linear solve
and satisfies mna·x + T = 0.  (With damping enabled the first-iteration td
scales dx, so the claimed exactness fails; see the counterexample.) -/
theorem c1_linear_one_iteration {n : ℕ} (opts : Options) (Vth : ℚ)
    (buildJTx : (Fin n → ℚ) → Matrix (Fin n) (Fin n) ℚ × (Fin n → ℚ))
    (mna : Matrix (Fin n) (Fin n) ℚ) (T : Fin n → ℚ) (nv1 : ℕ)
    (locked : List (ℕ × ℕ)) (MAXIT : ℕ) (x0 : Fin n → ℚ)
    (hM : 1 ≤ MAXIT) (h1 : opts.nr_damp_first_iters = false)
    (h2 : opts.nl_voltages_lock = false) (hdet : IsUnit mna.det) :
    mdn_solver opts Vth false buildJTx (some ⟨n, x0⟩) mna T MAXIT nv1 locked =
      .ok (x0 + matInv mna *ᵥ (-(mna *ᵥ x0 + T)), mna *ᵥ x0 + T, true, 1) ∧
    mna *ᵥ (x0 + matInv mna *ᵥ (-(mna *ᵥ x0 + T))) + T = 0 := by
  constructor
  · obtain ⟨rem, rfl⟩ : ∃ rem, MAXIT = rem + 1 := ⟨MAXIT - 1, by omega⟩
    rw [mdn_solver_some_eq, mdn_loop_linear_step]
    rw [get_td_flags_off opts Vth _ locked _ h1 h2, one_smul]
    simp only [add_zero, zero_add]
  · rw [Matrix.mulVec_add, matInv_mulVec hdet]
    abel

/-- C1 witness: the amended statement at a concrete invertible 1×1 system. -/
theorem c1_witness :
    (1 ≤ 3 ∧ optsStd.nr_damp_first_iters = false ∧ optsStd.nl_voltages_lock = false ∧
      IsUnit (1 : Matrix (Fin 1) (Fin 1) ℚ).det) ∧
    (mdn_solver optsStd 1 false (fun _ => (1, 0)) (some ⟨1, fun _ => 2⟩)
        (1 : Matrix (Fin 1) (Fin 1) ℚ) (fun _ => 1) 3 0 [] =
      .ok ((fun _ => 2) + matInv (1 : Matrix (Fin 1) (Fin 1) ℚ) *ᵥ
          (-((1 : Matrix (Fin 1) (Fin 1) ℚ) *ᵥ (fun _ => 2) + (fun _ => 1))),
        (1 : Matrix (Fin 1) (Fin 1) ℚ) *ᵥ (fun _ => 2) + (fun _ => 1), true, 1) ∧
    (1 : Matrix (Fin 1) (Fin 1) ℚ) *ᵥ ((fun _ => 2) + matInv (1 : Matrix (Fin 1) (Fin 1) ℚ) *ᵥ
        (-((1 : Matrix (Fin 1) (Fin 1) ℚ) *ᵥ (fun _ => 2) + (fun _ => 1)))) + (fun _ => 1) = 0) :=
  ⟨⟨by norm_num, rfl, rfl, by simp [Matrix.det_one]⟩,
    c1_linear_one_iteration optsStd 1 (fun _ => (1, 0)) 1 (fun _ => 1) 0 [] 3 (fun _ => 2)
      (by norm_num) rfl rfl (by simp [Matrix.det_one])⟩

lemma get_td_lock_off (opts : Options) (Vth : ℚ) (dx : List ℚ) (l : List (ℕ × ℕ)) (m : ℤ)
    (h : opts.nl_voltages_lock = false) :
    get_td opts Vth dx l m = get_td_iter_damp opts m := by
  simp [get_td, h]

/-- The configuration of the C1 counterexample: first-iteration damping ON. -/
def optsC1 : Options :=
  { nr_damp_first_iters := true, nl_voltages_lock := false,
    nl_voltages_lock_factor := 0, ver := 0, vea := 0, ier := 0, iea := 0,
    use_standard_solve_method := true, use_gmin_stepping := false,
    use_source_stepping := false, dc_sweep_skip_allowed := false }

/-- C1 (counterexample): with nr_damp_first_iters enabled, the linear solve of
mdn_solver on the 1×1 system x + 1 = 0 from x0 = 0 converges in one iteration
but returns x = (1/100)·(−1), for which mna·x + T = 99/100 ≠ 0 — the claim's
"for every configuration of the damping flags" fails. -/
theorem c1_counterexample :
    mdn_solver optsC1 1 false (fun _ => (1, 0)) (some ⟨1, 0⟩)
        (1 : Matrix (Fin 1) (Fin 1) ℚ) 1 10 0 [] =
      .ok (((1 : ℚ)/100) • -(1 : Fin 1 → ℚ), (1 : Fin 1 → ℚ), true, 1) ∧
    (1 : Matrix (Fin 1) (Fin 1) ℚ) *ᵥ (((1 : ℚ)/100) • -(1 : Fin 1 → ℚ)) + 1 ≠ 0 := by
  have hmi : matInv (1 : Matrix (Fin 1) (Fin 1) ℚ) = 1 := by
    simp [matInv, Matrix.det_one, Matrix.adjugate_one]
  constructor
  · rw [mdn_solver_some_eq]
    rw [show (10 : ℕ) = 9 + 1 from rfl, mdn_loop_linear_step]
    rw [hmi]
    simp only [Matrix.mulVec_zero, Matrix.one_mulVec, zero_add, add_zero]
    rw [get_td_lock_off optsC1 1 _ [] _ rfl]
    have hd : get_td_iter_damp optsC1 ((0 + 1 : ℕ) : ℤ) = 1/100 := by
      norm_num [get_td_iter_damp, optsC1]
    rw [hd]
  · intro h
    have h0 := congrFun h 0
    simp only [Matrix.one_mulVec, Pi.add_apply, Pi.smul_apply, Pi.neg_apply, Pi.one_apply,
      Pi.zero_apply, smul_eq_mul] at h0
    norm_num at h0

/-! ## Convergence-aid driver dc_solve (dc_analysis.py lines 101-281) -/

/-- Python `range(a, b)` over integers. -/
def rangeInt (a b : ℤ) : List ℤ := (List.range (b - a).toNat).map fun (k : ℕ) => a + (k : ℤ)

/-- The Gmin-stepping exponent list of `get_solve_methods` (lines 277-279):
`g_indices = range(int(numpy.log(options.gmin)), 0); g_indices.reverse()`.
`log_gmin` stands for `int(numpy.log(options.gmin))` — the NATURAL logarithm
of the configured gmin, computed in floating point and truncated toward zero;
that transcendental step stays outside the rational embedding. -/
def g_indices (log_gmin : ℤ) : List ℤ := (rangeInt log_gmin 0).reverse

/-- The exponent sequence exactly as claim C2 words it: an ascending integer
sequence from ⌊log₁₀(gmin_config)⌋ up to 0, inclusive. -/
def gmin_exponents_claimed (e0 : ℤ) : List ℤ := rangeInt e0 1

/-- The source-stepping factor schedule of `get_solve_methods` (line 280). -/
def sourceFactors : List ℚ :=
  [1/1000, 5/1000, 1/100, 3/100, 1/10, 3/10, 5/10, 7/10, 8/10, 9/10]

/-- The three strategy records built by `get_solve_methods` (lines 275-281),
flattened into one structure. -/
structure SolveMethods where
  std_enabled : Bool
  std_failed : Bool
  gmin_enabled : Bool
  gmin_failed : Bool
  gmin_factors : List ℤ
  gmin_index : ℕ
  src_enabled : Bool
  src_failed : Bool
  src_factors : List ℚ
  src_index : ℕ
deriving DecidableEq

/-- `get_solve_methods()` (lines 275-281). -/
def get_solve_methods (log_gmin : ℤ) : SolveMethods :=
  { std_enabled := false, std_failed := false,
    gmin_enabled := false, gmin_failed := false,
    gmin_factors := g_indices log_gmin, gmin_index := 0,
    src_enabled := false, src_failed := false,
    src_factors := sourceFactors, src_index := 0 }

/-- `set_next_solve_method` (lines 245-267): fail the enabled strategy, then
enable the first configured, not-yet-failed one. -/
def set_next_solve_method (opts : Options) (m : SolveMethods) : SolveMethods :=
  let m :=
    if m.std_enabled then { m with std_enabled := false, std_failed := true }
    else if m.gmin_enabled then { m with gmin_enabled := false, gmin_failed := true }
    else if m.src_enabled then { m with src_enabled := false, src_failed := true }
    else m
  if ¬m.std_failed ∧ opts.use_standard_solve_method then { m with std_enabled := true }
  else if ¬m.gmin_failed ∧ opts.use_gmin_stepping then { m with gmin_enabled := true }
  else if ¬m.src_failed ∧ opts.use_source_stepping then { m with src_enabled := true }
  else m

/-- `more_solve_methods_available` (lines 269-273). -/
def more_solve_methods_available (opts : Options) (m : SolveMethods) : Bool :=
  if (m.std_failed || !opts.use_standard_solve_method) &&
      (m.gmin_failed || !opts.use_gmin_stepping) &&
      (m.src_failed || !opts.use_source_stepping) then false
  else true

/-- `build_gmin_matrix(circ, gmin, mna_size, verbose)` (lines 234-242):
diagonal `gmin` on the node rows (the first `nv-1` of them), zero on the KVL
rows. -/
def build_gmin_matrix (n : ℕ) (gmin : ℚ) (nv1 : ℕ) : Matrix (Fin n) (Fin n) ℚ :=
  Matrix.of fun i j => if i = j ∧ (i : ℕ) < nv1 then gmin else 0

/-- The mutable state of dc_solve's while-loop (lines 161-232): the current
estimate `x`, the last `error` returned by the solver, the strategy records
and the accumulated iteration count. -/
structure LoopState (n : ℕ) where
  x : Fin n → ℚ
  err : Fin n → ℚ
  methods : SolveMethods
  tot : ℕ

/-- One solver invocation as dc_solve issues it: the initial guess and the
matrix and constant term passed to mdn_solver. -/
structure CallRec (n : ℕ) where
  x0 : Fin n → ℚ
  mnaPassed : Matrix (Fin n) (Fin n) ℚ
  NPassed : Fin n → ℚ

/-- Outcome of one trip around dc_solve's while-loop. -/
inductive StepRes (n : ℕ) where
  | cont (st : LoopState n)
  | stop (x : Option (Fin n → ℚ)) (err : Option (Fin n → ℚ)) (conv : Bool) (tot : ℕ)
  | crash
deriving Nonempty

/-- The body of dc_solve's while-loop (lines 177-231).  `mdn` abstracts the
call to mdn_solver (whose outcome depends on the circuit's nonlinear devices):
`none` models a raised LinAlgError/OverflowError, which the source catches,
leaving x and error unchanged with n_iter = 0 and converged false; `crash`
is the NameError the source would hit if no strategy were enabled. -/
def dc_solve_step {n : ℕ} (opts : Options)
    (mdn : (Fin n → ℚ) → Matrix (Fin n) (Fin n) ℚ → (Fin n → ℚ) →
      Option ((Fin n → ℚ) × (Fin n → ℚ) × Bool × ℕ))
    (mna Gmin : Matrix (Fin n) (Fin n) ℚ) (Ndc Ntran : Fin n → ℚ) (nv1 : ℕ)
    (st : LoopState n) : Option (CallRec n) × StepRes n :=
  let M := st.methods
  let chosen : Option (Matrix (Fin n) (Fin n) ℚ × (Fin n → ℚ)) :=
    if M.std_enabled then some (mna + Gmin, Ndc + Ntran)
    else if M.gmin_enabled then
      some (build_gmin_matrix n ((10 : ℚ) ^ (M.gmin_factors.getD M.gmin_index 0)) nv1 + mna,
        Ndc + Ntran)
    else if M.src_enabled then
      some (mna + Gmin, (M.src_factors.getD M.src_index 0) • Ndc + Ntran)
    else none
  match chosen with
  | none => (none, .crash)
  | some (mnaP, NP) =>
    let callRec : CallRec n := ⟨st.x, mnaP, NP⟩
    let after :=
      match mdn st.x mnaP NP with
      | some (x', e', conv, k) => (x', e', conv, st.tot + k)
      | none => (st.x, st.err, false, st.tot)
    if after.2.2.1 = false then
      if more_solve_methods_available opts M then
        (some callRec, .cont ⟨after.1, after.2.1, set_next_solve_method opts M, after.2.2.2⟩)
      else (some callRec, .stop none none false after.2.2.2)
    else
      if M.src_enabled = true ∧ M.src_index ≠ 9 then
        (some callRec, .cont ⟨after.1, after.2.1,
          { M with src_index := M.src_index + 1 }, after.2.2.2⟩)
      else if M.gmin_enabled = true ∧ M.gmin_index ≠ 9 then
        (some callRec, .cont ⟨after.1, after.2.1,
          { M with gmin_index := M.gmin_index + 1 }, after.2.2.2⟩)
      else (some callRec, .stop (some after.1) (some after.2.1) true after.2.2.2)

/-- dc_solve's while-loop, fuel-bounded (the source loop always terminates:
each trip either converges, advances a stepping index, or fails a strategy).
Returns the list of solver invocations and the final
(x, error, converged, tot_iterations), or `none` if the fuel ran out or no
strategy was enabled. -/
def dc_solve_loop {n : ℕ} (opts : Options)
    (mdn : (Fin n → ℚ) → Matrix (Fin n) (Fin n) ℚ → (Fin n → ℚ) →
      Option ((Fin n → ℚ) × (Fin n → ℚ) × Bool × ℕ))
    (mna Gmin : Matrix (Fin n) (Fin n) ℚ) (Ndc Ntran : Fin n → ℚ) (nv1 : ℕ) :
    ℕ → LoopState n →
    List (CallRec n) × Option (Option (Fin n → ℚ) × Option (Fin n → ℚ) × Bool × ℕ)
  | 0, _ => ([], none)
  | fuel + 1, st =>
    match dc_solve_step opts mdn mna Gmin Ndc Ntran nv1 st with
    | (some callRec, .cont st') =>
      let rest := dc_solve_loop opts mdn mna Gmin Ndc Ntran nv1 fuel st'
      (callRec :: rest.1, rest.2)
    | (some callRec, .stop x e c t) => ([callRec], some (x, e, c, t))
    | (some _, .crash) => ([], none)
    | (none, _) => ([], none)

/-- `dc_solve` from line 169 on (after the Tt folding): `Ndc` already includes
the time-variant contribution Tt, `Gmin` and `Ntran` default to 0 when the
caller passes none, and the first strategy is selected by
`set_next_solve_method` before the loop starts. -/
def dc_solve {n : ℕ} (opts : Options)
    (mdn : (Fin n → ℚ) → Matrix (Fin n) (Fin n) ℚ → (Fin n → ℚ) →
      Option ((Fin n → ℚ) × (Fin n → ℚ) × Bool × ℕ))
    (mna Gmin : Matrix (Fin n) (Fin n) ℚ) (Ndc Ntran : Fin n → ℚ) (nv1 : ℕ)
    (log_gmin : ℤ) (x0 : Option (Fin n → ℚ)) (fuel : ℕ) :
    List (CallRec n) × Option (Option (Fin n → ℚ) × Option (Fin n → ℚ) × Bool × ℕ) :=
  let m0 := set_next_solve_method opts (get_solve_methods log_gmin)
  dc_solve_loop opts mdn mna Gmin Ndc Ntran nv1 fuel
    ⟨x0.getD (fun _ => 0), fun _ => 0, m0, 0⟩


lemma g_indices_length (L : ℤ) : (g_indices L).length = (0 - L).toNat := by
  rw [g_indices, rangeInt, List.length_reverse, List.length_map, List.length_range]

lemma g_indices_getD (L : ℤ) (k : ℕ) (hk : k < (0 - L).toNat) :
    (g_indices L).getD k 0 = -(1 + (k : ℤ)) := by
  have hk' : k < (g_indices L).length := by rw [g_indices_length]; exact hk
  rw [List.getD_eq_getElem _ _ hk']
  unfold g_indices rangeInt
  rw [List.getElem_reverse, List.getElem_map, List.getElem_range]
  rw [List.length_map, List.length_range]
  omega

/-- C2 (amended): the Gmin ladder of get_solve_methods is
`reverse(range(int(ln gmin), 0))`, so the exponent used at step k is −(1+k) —
a DESCENDING walk −1, −2, … that never reaches 0 (and the loop stops advancing
at index 9); while the gmin strategy is the enabled one, dc_solve solves with
`build_gmin_matrix(10^factors[index]) + mna` using the current x as the
initial guess, and on convergence with index ≠ 9 it advances the index,
keeping the returned x as the next initial guess. -/
theorem c2_gmin_stepping_amended {n : ℕ} (opts : Options)
    (mdn : (Fin n → ℚ) → Matrix (Fin n) (Fin n) ℚ → (Fin n → ℚ) →
      Option ((Fin n → ℚ) × (Fin n → ℚ) × Bool × ℕ))
    (mna Gmin : Matrix (Fin n) (Fin n) ℚ) (Ndc Ntran : Fin n → ℚ) (nv1 : ℕ)
    (st : LoopState n) (x' e' : Fin n → ℚ) (k : ℕ)
    (hstd : st.methods.std_enabled = false)
    (hg : st.methods.gmin_enabled = true)
    (hsrc : st.methods.src_enabled = false)
    (hconv : mdn st.x
        (build_gmin_matrix n
          ((10 : ℚ) ^ (st.methods.gmin_factors.getD st.methods.gmin_index 0)) nv1 + mna)
        (Ndc + Ntran) = some (x', e', true, k))
    (hidx : st.methods.gmin_index ≠ 9) :
    (∀ (L : ℤ) (j : ℕ), (g_indices L).length = (0 - L).toNat ∧
      (j < (0 - L).toNat → (g_indices L).getD j 0 = -(1 + (j : ℤ)))) ∧
    (dc_solve_step opts mdn mna Gmin Ndc Ntran nv1 st).1 =
      some ⟨st.x,
        build_gmin_matrix n
          ((10 : ℚ) ^ (st.methods.gmin_factors.getD st.methods.gmin_index 0)) nv1 + mna,
        Ndc + Ntran⟩ ∧
    (dc_solve_step opts mdn mna Gmin Ndc Ntran nv1 st).2 =
      .cont ⟨x', e', { st.methods with gmin_index := st.methods.gmin_index + 1 },
        st.tot + k⟩ := by
  refine ⟨fun L j => ⟨g_indices_length L, fun hj => g_indices_getD L j hj⟩, ?_⟩
  simp only [dc_solve_step, hstd, hg, hsrc, hconv, Bool.false_eq_true, if_false, if_true,
    Bool.true_eq_false, false_and, and_false]
  rw [if_pos (show True ∧ st.methods.gmin_index ≠ 9 from ⟨trivial, hidx⟩)]
  exact ⟨rfl, rfl⟩

/-- C2 (counterexample): with gmin = 1e−12, the claim's ascending sequence
from ⌊log₁₀(gmin)⌋ = −12 up to 0 inclusive is not what the code builds — even
granting the claimed logarithm base, the code's list starts −1, −2
(descending) and never contains 0.  (The code in fact computes
int(numpy.log(1e−12)) = −27, a natural logarithm, so the claimed starting
point is wrong too.) -/
theorem c2_counterexample :
    g_indices (-12) ≠ gmin_exponents_claimed (-12) ∧
    (g_indices (-12)).take 2 = [-1, -2] ∧
    (gmin_exponents_claimed (-12)).take 2 = [-12, -11] ∧
    ¬ (0 : ℤ) ∈ g_indices (-12) := by
  refine ⟨?_, ?_, ?_, ?_⟩ <;> decide

/-- C2 witness: one gmin-stepping trip of dc_solve on a concrete 1×1 state. -/
theorem c2_witness :
    (({ std_enabled := false, std_failed := true, gmin_enabled := true,
        gmin_failed := false, gmin_factors := [-1, -2], gmin_index := 0,
        src_enabled := false, src_failed := false, src_factors := sourceFactors,
        src_index := 0 } : SolveMethods).std_enabled = false ∧
      (0 : ℕ) ≠ 9) ∧
    ((dc_solve_step optsStd (fun _ _ _ => some (fun _ => 7, fun _ => 0, true, 2))
        (0 : Matrix (Fin 1) (Fin 1) ℚ) 0 (fun _ => 1) (fun _ => 0) 1
        ⟨fun _ => 3, fun _ => 0,
          { std_enabled := false, std_failed := true, gmin_enabled := true,
            gmin_failed := false, gmin_factors := [-1, -2], gmin_index := 0,
            src_enabled := false, src_failed := false, src_factors := sourceFactors,
            src_index := 0 }, 0⟩).2 =
      .cont ⟨fun _ => 7, fun _ => 0,
        { std_enabled := false, std_failed := true, gmin_enabled := true,
          gmin_failed := false, gmin_factors := [-1, -2], gmin_index := 0 + 1,
          src_enabled := false, src_failed := false, src_factors := sourceFactors,
          src_index := 0 }, 0 + 2⟩) :=
  ⟨⟨rfl, by decide⟩,
    (c2_gmin_stepping_amended optsStd (fun _ _ _ => some (fun _ => 7, fun _ => 0, true, 2))
      0 0 (fun _ => 1) (fun _ => 0) 1
      ⟨fun _ => 3, fun _ => 0,
        { std_enabled := false, std_failed := true, gmin_enabled := true,
          gmin_failed := false, gmin_factors := [-1, -2], gmin_index := 0,
          src_enabled := false, src_failed := false, src_factors := sourceFactors,
          src_index := 0 }, 0⟩
      (fun _ => 7) (fun _ => 0) 2 rfl rfl rfl rfl (by decide)).2.2⟩

/-- C3 (amended): the source-stepping schedule is the ten factors
(0.001, 0.005, 0.01, 0.03, 0.1, 0.3, 0.5, 0.7, 0.8, 0.9); when the strategy
is at index 9 (factor 0.9) and that solve converges, dc_solve declares
success immediately and returns the 0.9-scaled solution — no full-strength
factor-1.0 solve is performed before returning. -/
theorem c3_source_stepping_amended {n : ℕ} (opts : Options)
    (mdn : (Fin n → ℚ) → Matrix (Fin n) (Fin n) ℚ → (Fin n → ℚ) →
      Option ((Fin n → ℚ) × (Fin n → ℚ) × Bool × ℕ))
    (mna Gmin : Matrix (Fin n) (Fin n) ℚ) (Ndc Ntran : Fin n → ℚ) (nv1 : ℕ)
    (st : LoopState n) (x' e' : Fin n → ℚ) (k : ℕ) (fuel : ℕ)
    (hstd : st.methods.std_enabled = false)
    (hg : st.methods.gmin_enabled = false)
    (hsrc : st.methods.src_enabled = true)
    (hidx : st.methods.src_index = 9)
    (hconv : mdn st.x (mna + Gmin) ((st.methods.src_factors.getD 9 0) • Ndc + Ntran) =
      some (x', e', true, k)) :
    sourceFactors = [1/1000, 5/1000, 1/100, 3/100, 1/10, 3/10, 5/10, 7/10, 8/10, 9/10] ∧
    sourceFactors.getD 9 0 = 9/10 ∧
    dc_solve_loop opts mdn mna Gmin Ndc Ntran nv1 (fuel + 1) st =
      ([⟨st.x, mna + Gmin, (st.methods.src_factors.getD 9 0) • Ndc + Ntran⟩],
        some (some x', some e', true, st.tot + k)) := by
  refine ⟨rfl, rfl, ?_⟩
  simp only [dc_solve_loop, dc_solve_step, hstd, hg, hsrc, hidx, hconv, Bool.false_eq_true,
    if_false, if_true, Bool.true_eq_false, false_and, and_false, ne_eq, not_true_eq_false]

/-- The configuration of the C3 counterexample: only source stepping enabled. -/
def optsC3 : Options :=
  { nr_damp_first_iters := false, nl_voltages_lock := false,
    nl_voltages_lock_factor := 0, ver := 0, vea := 0, ier := 0, iea := 0,
    use_standard_solve_method := false, use_gmin_stepping := false,
    use_source_stepping := true, dc_sweep_skip_allowed := false }

set_option maxRecDepth 10000 in
/-- C3 (counterexample): a full dc_solve run under source stepping in which
every solve converges: the constant terms passed to the solver are exactly
the ten scheduled scalings of N_dc = [1] — the value 1 (full strength) is
never among them — and dc_solve nevertheless returns converged = true after
those 10 calls. -/
theorem c3_counterexample :
    ((dc_solve optsC3 (fun _ _ _ => some (fun _ => 5, fun _ => 0, true, 1))
        (0 : Matrix (Fin 1) (Fin 1) ℚ) 0 (fun _ => 1) (fun _ => 0) 1 (-12) none 30).1.map
      (fun c => c.NPassed 0)) =
      [1/1000, 5/1000, 1/100, 3/100, 1/10, 3/10, 5/10, 7/10, 8/10, 9/10] ∧
    ¬ (1 : ℚ) ∈ ((dc_solve optsC3 (fun _ _ _ => some (fun _ => 5, fun _ => 0, true, 1))
        (0 : Matrix (Fin 1) (Fin 1) ℚ) 0 (fun _ => 1) (fun _ => 0) 1 (-12) none 30).1.map
      (fun c => c.NPassed 0)) ∧
    ((dc_solve optsC3 (fun _ _ _ => some (fun _ => 5, fun _ => 0, true, 1))
        (0 : Matrix (Fin 1) (Fin 1) ℚ) 0 (fun _ => 1) (fun _ => 0) 1 (-12) none 30).2.map
      (fun r => (r.2.2.1, r.2.2.2))) = some (true, 10) := by
  refine ⟨?_, ?_, ?_⟩ <;> with_unfolding_all decide

/-- C3 witness: the final source-stepping trip on a concrete 1×1 state. -/
theorem c3_witness :
    (({ std_enabled := false, std_failed := true, gmin_enabled := false,
        gmin_failed := true, gmin_factors := [-1], gmin_index := 0,
        src_enabled := true, src_failed := false, src_factors := sourceFactors,
        src_index := 9 } : SolveMethods).src_index = 9) ∧
    (sourceFactors = [1/1000, 5/1000, 1/100, 3/100, 1/10, 3/10, 5/10, 7/10, 8/10, 9/10] ∧
    sourceFactors.getD 9 0 = 9/10 ∧
    dc_solve_loop optsC3 (fun _ _ _ => some (fun _ => 4, fun _ => 0, true, 1))
        (0 : Matrix (Fin 1) (Fin 1) ℚ) 0 (fun _ => 1) (fun _ => 0) 1 (7 + 1)
        ⟨fun _ => 2, fun _ => 0,
          { std_enabled := false, std_failed := true, gmin_enabled := false,
            gmin_failed := true, gmin_factors := [-1], gmin_index := 0,
            src_enabled := true, src_failed := false, src_factors := sourceFactors,
            src_index := 9 }, 5⟩ =
      ([⟨((fun _ => 2) : Fin 1 → ℚ), (0 : Matrix (Fin 1) (Fin 1) ℚ) + 0,
          (sourceFactors.getD 9 0) • ((fun _ => 1) : Fin 1 → ℚ) + ((fun _ => 0) : Fin 1 → ℚ)⟩],
        some (some ((fun _ => 4) : Fin 1 → ℚ), some ((fun _ => 0) : Fin 1 → ℚ), true, 5 + 1))) :=
  ⟨rfl,
    c3_source_stepping_amended optsC3 (fun _ _ _ => some (fun _ => 4, fun _ => 0, true, 1))
      0 0 (fun _ => 1) (fun _ => 0) 1
      ⟨fun _ => 2, fun _ => 0,
        { std_enabled := false, std_failed := true, gmin_enabled := false,
          gmin_failed := true, gmin_factors := [-1], gmin_index := 0,
          src_enabled := true, src_failed := false, src_factors := sourceFactors,
          src_index := 9 }, 5⟩
      (fun _ => 4) (fun _ => 0) 1 7 rfl rfl rfl rfl rfl⟩

/-! ## DC sweep dc_analysis (dc_analysis.py lines 283-398) -/

/-- The ways the argument checks of dc_analysis can terminate the call. -/
inductive PreErr where
  | logDescending
  | unbounded
  | zeroDivision
deriving DecidableEq

/-- Result of the dc_analysis prechecks: an error or the computed point count. -/
inductive PreRes where
  | err (e : PreErr)
  | ok (points : ℚ)
deriving DecidableEq

/-- The argument checks and point count of dc_analysis (lines 311-317): the
log-sweep descending check exits first (sys.exit), then
`(stop - start)*step < 0` raises ValueError ("Unbonded stepping" — the
UnboundedStepping of the spec), then `points = (stop - start)/step + 1`,
which in Python raises ZeroDivisionError when step = 0. -/
def dc_analysis_precheck (is_log : Bool) (start stop step : ℚ) : PreRes :=
  if is_log = true ∧ stop - start < 0 then .err .logDescending
  else if (stop - start) * step < 0 then .err .unbounded
  else if step = 0 then .err .zeroDivision
  else .ok ((stop - start) / step + 1)

/-- C7 (amended): dc_analysis raises UnboundedStepping exactly when
(stop − start)·step is STRICTLY negative (and the log-descending exit did not
fire first); a zero product passes this check — step = 0 then dies with
ZeroDivisionError at the point-count computation, and start = stop simply
proceeds. -/
theorem c7_unbounded_stepping (is_log : Bool) (start stop step : ℚ) :
    (dc_analysis_precheck is_log start stop step = .err .unbounded ↔
      ¬(is_log = true ∧ stop - start < 0) ∧ (stop - start) * step < 0) ∧
    ((stop - start) * step = 0 →
      dc_analysis_precheck is_log start stop step ≠ .err .unbounded) := by
  have hiff : dc_analysis_precheck is_log start stop step = .err .unbounded ↔
      ¬(is_log = true ∧ stop - start < 0) ∧ (stop - start) * step < 0 := by
    unfold dc_analysis_precheck
    split_ifs with h1 h2 h3
    · constructor
      · intro hcontra
        exact absurd hcontra (by simp)
      · rintro ⟨hn1, _⟩
        exact absurd h1 hn1
    · exact ⟨fun _ => ⟨h1, h2⟩, fun _ => rfl⟩
    · constructor
      · intro hcontra
        exact absurd hcontra (by simp)
      · rintro ⟨_, hlt⟩
        exact absurd hlt h2
    · constructor
      · intro hcontra
        exact absurd hcontra (by simp)
      · rintro ⟨_, hlt⟩
        exact absurd hlt h2
  refine ⟨hiff, fun h0 hc => ?_⟩
  rw [hiff] at hc
  rw [h0] at hc
  exact absurd hc.2 (lt_irrefl 0)

/-- C7 (counterexample): start = stop = 0 with step = 1 has
(stop − start)·step = 0 ≤ 0, yet dc_analysis passes the check and proceeds to
one sweep point; start = 0, stop = 1, step = 0 also has product 0 but dies
with ZeroDivisionError, not UnboundedStepping. -/
theorem c7_counterexample :
    dc_analysis_precheck false 0 0 1 = .ok 1 ∧
    dc_analysis_precheck false 0 1 0 = .err .zeroDivision ∧
    PreErr.zeroDivision ≠ PreErr.unbounded ∧
    ((0 : ℚ) - 0) * 1 ≤ 0 := by
  refine ⟨?_, ?_, by decide, by norm_num⟩ <;> with_unfolding_all decide

/-- C7 witness: the amended statement at is_log = false, start = 0, stop = 1,
step = −1 (raises) and the zero-product clause at step = 0. -/
theorem c7_witness :
    (((1 : ℚ) - 0) * 0 = 0 ∧
      dc_analysis_precheck false 0 1 0 ≠ .err .unbounded) ∧
    (dc_analysis_precheck false 0 1 (-1) = .err .unbounded ↔
      ¬((false = true) ∧ (1 : ℚ) - 0 < 0) ∧ ((1 : ℚ) - 0) * (-1) < 0) :=
  ⟨⟨by norm_num, (c7_unbounded_stepping false 0 1 0).2 (by norm_num)⟩,
    (c7_unbounded_stepping false 0 1 (-1)).1⟩

/-- Outcome of the sweep of dc_analysis: a normal return (the solution list,
or None when no point solved) or a propagating exception (`some e` from a
point's solve, `none` for the NameError on the unbound `solved` variable). -/
inductive DCExit (X E : Type) where
  | ok (sol : Option (List (ℚ × X)))
  | exc (e : Option E)
deriving DecidableEq

/-- The sweep loop of dc_analysis (lines 365-398) with the swept source's DC
value as explicit state (last argument).  `opFn` abstracts
`op_analysis(circ, x0=x, guess, verbose=0)` at the point value: `.error` is an
exception propagating out of the point's solve, `.ok none` a failed point.
The loop assigns the source value before each call; after the loop, reading
the `solved` flag (None while the Python local is still unbound) raises
NameError before the clean-up, so only the normal paths restore
`initial_value` (lines 389-396). -/
def dc_sweep_loop {X E : Type} (opFn : ℚ → Option X → Except E (Option X))
    (skip_allowed : Bool) (initial_value : ℚ) :
    List ℚ → Option X → Option Bool → List (ℚ × X) → ℚ → ℚ × DCExit X E
  | [], _, solved, acc, src =>
    match solved with
    | none => (src, .exc none)
    | some b => (initial_value, .ok (if b then some acc else none))
  | v :: rest, x, solved, acc, _ =>
    match opFn v x with
    | .error e => (v, .exc (some e))
    | .ok none =>
      if skip_allowed then dc_sweep_loop opFn skip_allowed initial_value rest none solved acc v
      else (initial_value, .ok none)
    | .ok (some xv) =>
      dc_sweep_loop opFn skip_allowed initial_value rest (some xv) (some true)
        (acc ++ [(v, xv)]) v

/-- The sweep of dc_analysis (lines 346-398): record the source's initial DC
value, run the point loop mutating it, and restore it in the clean-up that
the normal exits reach. -/
def dc_analysis_sweep {X E : Type} (opFn : ℚ → Option X → Except E (Option X))
    (skip_allowed : Bool) (initial_value : ℚ) (points : List ℚ) (x0 : Option X) :
    ℚ × DCExit X E :=
  dc_sweep_loop opFn skip_allowed initial_value points x0 none [] initial_value

lemma dc_sweep_loop_restore {X E : Type} (opFn : ℚ → Option X → Except E (Option X))
    (skip_allowed : Bool) (initial_value : ℚ) :
    ∀ (points : List ℚ) (x : Option X) (solved : Option Bool) (acc : List (ℚ × X))
      (src : ℚ) (sol : Option (List (ℚ × X))),
      (dc_sweep_loop opFn skip_allowed initial_value points x solved acc src).2 = .ok sol →
      (dc_sweep_loop opFn skip_allowed initial_value points x solved acc src).1 =
        initial_value
  | [], x, solved, acc, src, sol => by
    cases solved with
    | none => intro h; simp [dc_sweep_loop] at h
    | some b => intro _; simp [dc_sweep_loop]
  | v :: rest, x, solved, acc, src, sol => by
    intro h
    rcases hop : opFn v x with e | xo
    · rw [dc_sweep_loop] at h
      rw [hop] at h
      simp at h
    · cases xo with
      | none =>
        rw [dc_sweep_loop] at h ⊢
        rw [hop] at h ⊢
        by_cases hskip : skip_allowed
        · rw [if_pos hskip] at h ⊢
          exact dc_sweep_loop_restore opFn skip_allowed initial_value rest none solved acc
            v sol h
        · rw [if_neg hskip] at h ⊢
      | some xv =>
        rw [dc_sweep_loop] at h ⊢
        rw [hop] at h ⊢
        exact dc_sweep_loop_restore opFn skip_allowed initial_value rest (some xv)
          (some true) (acc ++ [(v, xv)]) v sol h

/-- C4 (amended): whenever dc_analysis returns normally — the sweep completed,
a point failed with skipping disallowed (abort), or failed points were
skipped but some point solved — the swept source's DC value is restored to
its pre-call value.  On the exception paths (a point's solve raises, or every
point was skipped so the `solved` local is unbound and reading it raises
NameError) the mutated value is left in place. -/
theorem c4_source_restoration {X E : Type} (opFn : ℚ → Option X → Except E (Option X))
    (skip_allowed : Bool) (initial_value : ℚ) (points : List ℚ) (x0 : Option X)
    (sol : Option (List (ℚ × X)))
    (h : (dc_analysis_sweep opFn skip_allowed initial_value points x0).2 = .ok sol) :
    (dc_analysis_sweep opFn skip_allowed initial_value points x0).1 = initial_value :=
  dc_sweep_loop_restore opFn skip_allowed initial_value points x0 none [] initial_value
    sol h

/-- C4 (counterexample): a sweep whose single point's solve raises propagates
the exception with the swept source left at the sweep value 5, not restored
to its pre-call value 1. -/
theorem c4_counterexample :
    dc_analysis_sweep (X := ℚ) (E := Unit) (fun _ _ => .error ()) true 1 [5] none =
      (5, .exc (some ())) ∧ (5 : ℚ) ≠ 1 :=
  ⟨rfl, by norm_num⟩

/-- C4 witness: a successful one-point sweep restores the source value. -/
theorem c4_witness :
    ((dc_analysis_sweep (X := ℚ) (E := Unit) (fun v _ => .ok (some v)) false 1 [5] none).2 =
      .ok (some [(5, 5)])) ∧
    (dc_analysis_sweep (X := ℚ) (E := Unit) (fun v _ => .ok (some v)) false 1 [5] none).1 = 1 :=
  ⟨rfl, c4_source_restoration (fun v _ => .ok (some v)) false 1 [5] none (some [(5, 5)]) rfl⟩

/-! ## Initial conditions from a user dictionary (dc_analysis.py lines 874-919) -/

/-- Python's `\s` for the default (non-unicode) str patterns. -/
def pyIsSpace (c : Char) : Bool :=
  c == ' ' || c == '\t' || c == '\n' || c == '\r' || c == '\x0b' || c == '\x0c'

/-- Python's `\w` for the default (non-unicode) str patterns. -/
def pyIsWord (c : Char) : Bool := c.isAlpha || c.isDigit || c == '_'

def dropSpaces (cs : List Char) : List Char := cs.dropWhile pyIsSpace

/-- Match the regex `u\s*\(\s*(\w?)\s*\)` with IGNORECASE (so the letter `u`
or `l`) at the head of `cs`, returning the captured group: `\w?` greedily
takes one word character if a `\s*\)` can follow, else backtracks to the
empty match, which succeeds only if `)` is next. -/
def matchIC (u l : Char) (cs : List Char) : Option (List Char) :=
  match cs with
  | [] => none
  | c :: rest =>
    if c == u || c == l then
      match dropSpaces rest with
      | '(' :: rest2 =>
        match dropSpaces rest2 with
        | [] => none
        | w :: rest4 =>
          if pyIsWord w then
            match dropSpaces rest4 with
            | ')' :: _ => some [w]
            | _ => none
          else if w == ')' then some []
          else none
      | _ => none
    else none

/-- `re.search`: try the pattern at every start position, left to right. -/
def reSearch (u l : Char) : List Char → Option (List Char)
  | [] => none
  | c :: rest =>
    match matchIC u l (c :: rest) with
    | some g => some g
    | none => reSearch u l rest

/-- Result of build_x0_from_user_supplied_ic: the vector, or the raised error. -/
inductive BuildRes where
  | err (msg : String)
  | ok (x0 : List ℚ)
deriving DecidableEq

/-- The per-entry loop of build_x0_from_user_supplied_ic (lines 908-918):
`Vregex = V\s*\(\s*(\w?)\s*\)` and `Iregex = I\s*\(\s*(\w?)\s*\)` (note `\w?`:
the group takes at most ONE word character).  `ext_node_to_int` abstracts
`circ.ext_node_to_int` (None = the unknown-node exception); an `I(...)` name
absent from the voltage-defined element list raises ValueError from
`list.index`. -/
def build_x0_loop (nv : ℕ) (vde_names : List String)
    (ext_node_to_int : String → Option ℕ) :
    List (String × ℚ) → List ℚ → BuildRes
  | [], x0 => .ok x0
  | (label, value) :: rest, x0 =>
    match reSearch 'V' 'v' label.toList with
    | some g =>
      match ext_node_to_int (String.mk g) with
      | some int_node => build_x0_loop nv vde_names ext_node_to_int rest
          (x0.set int_node value)
      | none => .err ("node not found: " ++ String.mk g)
    | none =>
      match reSearch 'I' 'i' label.toList with
      | some g =>
        match vde_names.indexOf? (String.mk g) with
        | some idx => build_x0_loop nv vde_names ext_node_to_int rest
            (x0.set (nv + idx) value)
        | none => .err ("element not found: " ++ String.mk g)
      | none => .err ("Unrecognized label " ++ label)

/-- `build_x0_from_user_supplied_ic(circ, icdict)` (lines 874-919): allocate
a zero vector of nv + ni rows, fill it from the dictionary entries, and
return it with row 0 dropped.  `nv = len(circ.nodes_dict)`, `vde_names` the
lower-cased `letter_id + descr` of the voltage-defined elements. -/
def build_x0_from_user_supplied_ic (nv : ℕ) (vde_names : List String)
    (ext_node_to_int : String → Option ℕ) (icdict : List (String × ℚ)) : BuildRes :=
  match build_x0_loop nv vde_names ext_node_to_int icdict
      (List.replicate (nv + vde_names.length) 0) with
  | .ok x0 => .ok (x0.drop 1)
  | .err m => .err m

/-- C8: the claim says every well-formed key `V(node_label)` with a known
node is accepted.  The code's regex captures the node label with `\w?` — at
most ONE word character — so the well-formed key "V(n1)" (the docstring's own
example, node label n1 present in the circuit) matches nothing and raises
ValueError "Unrecognized label V(n1)"; a one-character label such as "V(a)"
is accepted and lands in the reduced vector.  The pattern was clearly meant
to be `\w+`: the code contradicts its own docstring.  This theorem evaluates
the code at the failing input. -/
theorem c8_regex_rejects_well_formed_label :
    build_x0_from_user_supplied_ic 2 []
        (fun s => if s = "n1" then some 1 else if s = "0" then some 0 else none)
        [("V(n1)", 23/10)] =
      .err ("Unrecognized label " ++ "V(n1)") ∧
    build_x0_from_user_supplied_ic 2 []
        (fun s => if s = "a" then some 1 else if s = "0" then some 0 else none)
        [("V(a)", 5)] =
      .ok [5] := by
  constructor
  · with_unfolding_all decide
  · with_unfolding_all decide

/-! ## Element-level initial conditions modify_x0_for_ic (lines 921-952) -/

/-- The element variants modify_x0_for_ic dispatches on, with the fields it
reads (`n1`, `n2`, the value parameter, and the optional `ic`). -/
inductive Elem where
  | resistor (n1 n2 : ℕ) (R : ℚ)
  | capacitor (n1 n2 : ℕ) (C : ℚ) (ic : ℚ)
  | inductor (n1 n2 : ℕ) (L : ℚ) (ic : ℚ)
  | diode (n1 n2 : ℕ) (ic : ℚ)
  | vsource (n1 n2 : ℕ) (vdc : ℚ)
  | isource (n1 n2 : ℕ) (idc : ℚ)
deriving DecidableEq

/-- `circuit.is_elem_voltage_defined` restricted to the variants above. -/
def is_elem_voltage_defined : Elem → Bool
  | .vsource _ _ _ => true
  | .inductor _ _ _ _ => true
  | _ => false

/-- The `(capacitor or diode) with ic` test of lines 936-937, yielding the
ports and ic; Python's `and elem.ic` is an `ic ≠ 0` truthiness test. -/
def elem_ic_voltage : Elem → Option (ℕ × ℕ × ℚ)
  | .capacitor n1 n2 _ ic => some (n1, n2, ic)
  | .diode n1 n2 ic => some (n1, n2, ic)
  | _ => none

/-- `modify_x0_for_ic(circ, x0)` (lines 921-952), on a plain vector x0:
for each capacitor/diode with nonzero ic, `x0[n1-1] = x0[n2-1] + ic` with
Python index semantics; then for each inductor with nonzero ic, the branch
current row `nv - 1 + index` is set to ic. -/
def modify_x0_for_ic (nv : ℕ) (elements : List Elem) (x0 : List ℚ) : List ℚ :=
  let vde := elements.filter is_elem_voltage_defined
  let x1 := elements.foldl (fun x e =>
    match elem_ic_voltage e with
    | some (n1, n2, ic) =>
      if ic ≠ 0 then pySet x ((n1 : ℤ) - 1) (pyGet x ((n2 : ℤ) - 1) + ic) else x
    | none => x) x0
  vde.foldl (fun x e =>
    match e with
    | .inductor _ _ _ ic =>
      if ic ≠ 0 then pySet x ((nv : ℤ) - 1 + (vde.indexOf e : ℕ)) ic else x
    | _ => x) x1

lemma pyGet_neg_one (x0 : List ℚ) (hne : x0.length ≠ 0) :
    pyGet x0 (-1) = x0.getD (x0.length - 1) 0 := by
  simp only [pyGet, pyIdx]
  have hc : (0 ≤ if (-1 : ℤ) < 0 then -1 + (x0.length : ℤ) else -1) ∧
      (if (-1 : ℤ) < 0 then -1 + (x0.length : ℤ) else -1).toNat < x0.length := by
    rw [if_pos (show (-1 : ℤ) < 0 by norm_num)]
    omega
  rw [dif_pos hc]
  have hidx : (if (-1 : ℤ) < 0 then -1 + (x0.length : ℤ) else -1).toNat = x0.length - 1 := by
    rw [if_pos (show (-1 : ℤ) < 0 by norm_num)]
    omega
  rw [List.getD_eq_getElem _ _ (by omega)]
  simp only [List.get_eq_getElem]
  simp only [hidx]

lemma pySet_getD (x0 : List ℚ) (n1 : ℕ) (a : ℚ) (h1 : 1 ≤ n1) (h3 : n1 - 1 < x0.length) :
    (pySet x0 ((n1 : ℤ) - 1) a).getD (n1 - 1) 0 = a := by
  simp only [pySet, pyIdx]
  rw [if_neg (show ¬((n1 : ℤ) - 1 < 0) by omega)]
  rw [if_pos (show (0 : ℤ) ≤ (n1 : ℤ) - 1 by omega)]
  have hcast : ((n1 : ℤ) - 1).toNat = n1 - 1 := by omega
  rw [hcast]
  rw [List.getD_eq_getElem _ _ (by simpa using h3)]
  exact List.getElem_set_self (by simpa using h3)

/-- C10: for a capacitor or diode carrying a nonzero initial condition whose
node n2 is the reference node 0, modify_x0_for_ic sets x0[n1−1] to
x0[last] + ic — the Python index n2 − 1 = −1 wraps around to the LAST entry
of x0 — rather than treating the ground voltage as 0. -/
theorem c10_modify_x0_ground_wraparound (nv : ℕ) (x0 : List ℚ) (n1 : ℕ) (Cv ic : ℚ)
    (h1 : 1 ≤ n1) (h2 : ic ≠ 0) (h3 : n1 - 1 < x0.length) :
    (modify_x0_for_ic nv [Elem.capacitor n1 0 Cv ic] x0).getD (n1 - 1) 0 =
      x0.getD (x0.length - 1) 0 + ic ∧
    (modify_x0_for_ic nv [Elem.diode n1 0 ic] x0).getD (n1 - 1) 0 =
      x0.getD (x0.length - 1) 0 + ic := by
  have hne : x0.length ≠ 0 := by omega
  have hcap : modify_x0_for_ic nv [Elem.capacitor n1 0 Cv ic] x0 =
      if ic ≠ 0 then pySet x0 ((n1 : ℤ) - 1) (pyGet x0 ((0 : ℤ) - 1) + ic) else x0 := rfl
  have hdio : modify_x0_for_ic nv [Elem.diode n1 0 ic] x0 =
      if ic ≠ 0 then pySet x0 ((n1 : ℤ) - 1) (pyGet x0 ((0 : ℤ) - 1) + ic) else x0 := rfl
  constructor
  · rw [hcap, if_pos h2, show ((0 : ℤ) - 1) = -1 from rfl, pyGet_neg_one x0 hne,
      pySet_getD x0 n1 _ h1 h3]
  · rw [hdio, if_pos h2, show ((0 : ℤ) - 1) = -1 from rfl, pyGet_neg_one x0 hne,
      pySet_getD x0 n1 _ h1 h3]

/-- C10 witness: capacitor with ic = 5 and n2 = 0 on x0 = [2, 3, 4] writes
4 + 5 (the LAST entry plus ic) into row n1 − 1 = 0. -/
theorem c10_witness :
    ((1 : ℕ) ≤ 1 ∧ (5 : ℚ) ≠ 0 ∧ 1 - 1 < [(2 : ℚ), 3, 4].length) ∧
    ((modify_x0_for_ic 3 [Elem.capacitor 1 0 1 5] [2, 3, 4]).getD (1 - 1) 0 =
      [(2 : ℚ), 3, 4].getD ([(2 : ℚ), 3, 4].length - 1) 0 + 5 ∧
    (modify_x0_for_ic 3 [Elem.diode 1 0 5] [2, 3, 4]).getD (1 - 1) 0 =
      [(2 : ℚ), 3, 4].getD ([(2 : ℚ), 3, 4].length - 1) 0 + 5) :=
  ⟨⟨by norm_num, by norm_num, by norm_num⟩,
    c10_modify_x0_ground_wraparound 3 [2, 3, 4] 1 1 5 (by norm_num) (by norm_num)
      (by norm_num)⟩
